import Mathlib

/-! # Hysteria2 outbound adapter: session rotation and hand-off

A shallow embedding of `adapter/outbound/hysteria2.go`.

* The adapter struct `Hysteria2` is a record; the methods that mutate it
  (`DialContext`, `ListenPacketContext`, `createNewClient`) are functions from
  record to record.
* Go `int64` values are integers, and every `+` of the source is followed by a
  reduction to the two's-complement range (`wrapInt64`).
* A `*hysteria2.Client` is `Option Nat`: `none` is the nil pointer and `some i`
  is the client with identity `i`.
* Everything the file imports from other packages (`hysteria2.NewClient`,
  `ca.GetTLSConfig`, `StringToBps`, `rand.Int63n`, `time.Now`, the dialer) is an
  explicit argument of the function that calls it.
-/

namespace Outbound

/-! ## Machine integers -/

/-- Reduction of an integer to the range of a Go `int64` (two's complement, 64 bits). -/
def wrapInt64 (x : Int) : Int :=
  (x + 9223372036854775808) % 18446744073709551616 - 9223372036854775808

/-- The Go conversion `uint16(x)`: the low 16 bits of `x`. -/
def toUint16 (x : Int) : Int := x % 65536

/-! ## Data model -/

/-- A value of type `*hysteria2.Client`; `none` is nil. -/
abbrev ClientPtr := Option Nat

/-- The pair `(*Client, error)` returned by one call of `hysteria2.NewClient`;
the error is `none` for a nil error. -/
abbrev NewClientResult := ClientPtr × Option String

/-- The fields of `BasicOption` that `NewHysteria2` reads. -/
structure BasicOption where
  Interface : String
  RoutingMark : Int
  IPVersion : String
  DialerProxy : String
  deriving DecidableEq, Repr

/-- The struct `Hysteria2Option` (lines 45-63). -/
structure Hysteria2Option extends BasicOption where
  Name : String
  Server : String
  Port : Int
  Up : String
  Down : String
  Password : String
  Obfs : String
  ObfsPassword : String
  SNI : String
  SkipCertVerify : Bool
  Fingerprint : String
  ALPN : List String
  CustomCA : String
  CustomCAString : String
  CWND : Int
  UdpMTU : Int
  deriving DecidableEq, Repr

/-- The fields of `tls.Config` that `NewHysteria2` sets; `Trust` stands for the
certificate material that `ca.GetTLSConfig` installs. -/
structure TLSConfig where
  ServerName : String
  InsecureSkipVerify : Bool
  MinVersion : Nat
  NextProtos : List String
  Trust : Nat
  deriving DecidableEq, Repr

/-- The struct literal `hysteria2.ClientOptions` of lines 160-171 and 215-226.
`ServerAddress` is the host and port handed to `M.ParseSocksaddrHostPort`;
`Dialer` is the identity of the shared `SingDialer`. -/
structure ClientOptions where
  Dialer : Nat
  ServerAddress : String × Int
  SendBPS : Nat
  ReceiveBPS : Nat
  SalamanderPassword : String
  Password : String
  TLSConfig : TLSConfig
  UDPDisabled : Bool
  CWND : Int
  deriving DecidableEq, Repr

/-- The fields `name`, `addr`, `udp`, `iface` and `rmark` of `Base`, filled in at
lines 179-187. The two others set there, `tp` (the constant `C.Hysteria2`) and
`prefer` (`C.NewDNSPrefer(option.IPVersion)`), are values of other packages and are
not represented. -/
structure Base where
  name : String
  addr : String
  udp : Bool
  iface : String
  rmark : Int
  deriving DecidableEq, Repr

/-- A `*time.Ticker`: its period in seconds and whether `Stop` has been called. -/
structure Ticker where
  seconds : Nat
  stopped : Bool
  deriving DecidableEq, Repr

/-- The struct `Hysteria2` (lines 31-43). `tickerDone` is a `chan struct{}`:
`none` is the nil channel, `some i` a channel made with `make`. -/
structure Hysteria2 where
  base : Base
  option : Hysteria2Option
  client : ClientPtr
  dialer : Nat
  needUpdateDial : Bool
  DialUpdateAt : Int
  ListenUpdateAt : Int
  cclient : ClientPtr
  ticker : Ticker
  tickerDone : Option Nat
  deriving DecidableEq, Repr

/-- The functions of other packages that the file calls and that do not depend
on the call (pure collaborators). -/
structure Collaborators where
  StringToBps : String → Nat
  GetTLSConfig : TLSConfig → String → String → String → Except String TLSConfig
  NewByNameSingDialer : String → Nat

/-! ## Stream-dial path -/

/-- The method `DialContext`, lines 67-72: the adoption check. `now` is the
value that `time.Now().UnixMilli()` returns when line 70 runs. Lines 74-80
call the dialer and `h.client.DialConn` and assign no field of `h`. -/
def DialContext (now : Int) (h : Hysteria2) : Hysteria2 :=
  if h.needUpdateDial then
    { h with
      client := h.cclient
      needUpdateDial := false
      DialUpdateAt := now
      ListenUpdateAt := now }
  else h

/-! ## Datagram-listen path -/

/-- The three arms of the `switch` at lines 85-93. -/
inductive ListenCase
  | equal
  | adopt
  | default
  deriving DecidableEq, Repr

/-- The arm of the `switch` at lines 85-93 that a listen call takes in state `h`. -/
def listenCase (h : Hysteria2) : ListenCase :=
  if h.ListenUpdateAt = h.DialUpdateAt then ListenCase.equal
  else if h.ListenUpdateAt = wrapInt64 (h.DialUpdateAt + 1) then ListenCase.adopt
  else ListenCase.default

/-- The method `ListenPacketContext`, lines 85-93. Lines 95-104 call the dialer and
`h.client.ListenPacket` and assign no field of `h`. -/
def ListenPacketContext (h : Hysteria2) : Hysteria2 :=
  match listenCase h with
  | ListenCase.equal => { h with ListenUpdateAt := wrapInt64 (h.ListenUpdateAt + 1) }
  | ListenCase.adopt =>
    { h with
      client := h.cclient
      ListenUpdateAt := wrapInt64 (h.ListenUpdateAt + 1) }
  | ListenCase.default => h

/-! ## Rotation -/

/-- The client options built by `createNewClient`, lines 213-226; `r` is the value
returned by `rand.Int63n(4000)`. -/
def rotationClientOptions (E : Collaborators) (r : Int) (tlsConfig : TLSConfig)
    (h : Hysteria2) : ClientOptions :=
  let port := wrapInt64 (50005 + r)
  { Dialer := h.dialer
    ServerAddress := (h.option.Server, toUint16 port)
    SendBPS := E.StringToBps h.option.Up
    ReceiveBPS := E.StringToBps h.option.Down
    SalamanderPassword := ""
    Password := h.option.Password
    TLSConfig := tlsConfig
    UDPDisabled := false
    CWND := h.option.CWND }

/-- The method `createNewClient`, lines 212-234. `newClient` is the behaviour of
`hysteria2.NewClient` at this call. The result is the adapter afterwards and the
returned error. -/
def createNewClient (E : Collaborators) (r : Int) (newClient : ClientOptions → NewClientResult)
    (tlsConfig : TLSConfig) (h : Hysteria2) : Hysteria2 × Option String :=
  let res := newClient (rotationClientOptions E r tlsConfig h)
  let h1 := { h with cclient := res.1 }
  match res.2 with
  | some err => (h1, some err)
  | none => ({ h1 with needUpdateDial := true }, none)

/-! ## Construction -/

/-- Modelled from the spec: the constant `hysteria2.ObfsTypeSalamander` of the
transport library, which the specification names as the method "salamander". -/
def ObfsTypeSalamander : String := "salamander"

/-- The function `net.JoinHostPort` of the Go standard library. -/
def JoinHostPort (host port : String) : String :=
  if ':' ∈ host.toList ∨ '%' ∈ host.toList then "[" ++ host ++ "]:" ++ port
  else host ++ ":" ++ port

/-- The obfuscation check of `NewHysteria2`, lines 119-129: the error it returns, if any. -/
def checkObfs (option : Hysteria2Option) : Option String :=
  if 0 < option.Obfs.length then
    if option.ObfsPassword = "" then some "missing obfs password"
    else if option.Obfs = ObfsTypeSalamander then none
    else some ("unknown obfs type: " ++ option.Obfs)
  else none

/-- What `NewHysteria2` creates or starts, in program order. -/
inductive Effect
  | tlsConfig (c : TLSConfig)
  | tlsTrust (c : TLSConfig)
  | singDialer (d : Nat)
  | newClient (o : ClientOptions)
  | newTicker (seconds : Nat)
  | goLoop
  | setFinalizer
  deriving DecidableEq, Repr

/-- The client options built by `NewHysteria2`, lines 160-171; `r` is the value
returned by `rand.Int63n(4000)`. -/
def constructionClientOptions (E : Collaborators) (r : Int) (tlsConfig : TLSConfig)
    (singDialer : Nat) (option : Hysteria2Option) : ClientOptions :=
  { Dialer := singDialer
    ServerAddress := (option.Server, toUint16 (wrapInt64 (50005 + r)))
    SendBPS := E.StringToBps option.Up
    ReceiveBPS := E.StringToBps option.Down
    SalamanderPassword := ""
    Password := option.Password
    TLSConfig := tlsConfig
    UDPDisabled := false
    CWND := option.CWND }

/-- The TLS configuration literal of `NewHysteria2`, lines 131-140: the server name
is `SNI` when it is set and `Server` otherwise, the minimum version is TLS 1.3
(`tls.VersionTLS13`, 0x0304). -/
def initialTLSConfig (option : Hysteria2Option) : TLSConfig :=
  let serverName := if option.SNI ≠ "" then option.SNI else option.Server
  { ServerName := serverName
    InsecureSkipVerify := option.SkipCertVerify
    MinVersion := 772
    NextProtos := []
    Trust := 0 }

/-- Lines 148-150 of `NewHysteria2`: a non-empty ALPN list replaces `NextProtos`. -/
def applyALPN (option : Hysteria2Option) (tlsConfig : TLSConfig) : TLSConfig :=
  if 0 < option.ALPN.length then { tlsConfig with NextProtos := option.ALPN } else tlsConfig

/-- Lines 152-156 of `NewHysteria2`: an unset UDP MTU becomes `1200 - 3`. -/
def applyDefaultMTU (option : Hysteria2Option) : Hysteria2Option :=
  if option.UdpMTU = 0 then { option with UdpMTU := 1200 - 3 } else option

/-- The struct literal of `NewHysteria2`, lines 178-192. The fields it does not
name (`needUpdateDial`, the two epochs, `cclient`, `tickerDone`) have the zero
value of their type. -/
def newOutbound (addr : String) (option : Hysteria2Option) (client : ClientPtr)
    (singDialer : Nat) : Hysteria2 :=
  { base :=
      { name := option.Name
        addr := addr
        udp := true
        iface := option.Interface
        rmark := option.RoutingMark }
    option := option
    client := client
    dialer := singDialer
    needUpdateDial := false
    DialUpdateAt := 0
    ListenUpdateAt := 0
    cclient := none
    ticker := { seconds := 30, stopped := false }
    tickerDone := none }

/-- The constructor `NewHysteria2`, lines 116-211. `r0`, `nc0` are the random value
and the behaviour of `hysteria2.NewClient` at line 173; `r1`, `nc1` those of the
`createNewClient` call of line 194. The result is the returned pair (adapter or
error) and the list of what was created on the way. -/
def NewHysteria2 (E : Collaborators) (r0 : Int) (nc0 : ClientOptions → NewClientResult)
    (r1 : Int) (nc1 : ClientOptions → NewClientResult) (option : Hysteria2Option) :
    Except String Hysteria2 × List Effect :=
  let addr := JoinHostPort option.Server (toString option.Port)
  match checkObfs option with
  | some err => (Except.error err, [])
  | none =>
    let tlsConfig0 := initialTLSConfig option
    match E.GetTLSConfig tlsConfig0 option.Fingerprint option.CustomCA option.CustomCAString with
    | Except.error err => (Except.error err, [Effect.tlsConfig tlsConfig0])
    | Except.ok tlsConfig1 =>
      let tlsConfig := applyALPN option tlsConfig1
      let option := applyDefaultMTU option
      let singDialer := E.NewByNameSingDialer option.DialerProxy
      let clientOptions := constructionClientOptions E r0 tlsConfig singDialer option
      let created :=
        [Effect.tlsConfig tlsConfig0, Effect.tlsTrust tlsConfig1, Effect.singDialer singDialer,
          Effect.newClient clientOptions]
      match nc0 clientOptions with
      | (_, some err) => (Except.error err, created)
      | (client, none) =>
        let outbound := newOutbound addr option client singDialer
        let outbound1 := (createNewClient E r1 nc1 tlsConfig outbound).1
        (Except.ok outbound1,
          created ++
            [Effect.newTicker 30,
              Effect.newClient (rotationClientOptions E r1 tlsConfig outbound),
              Effect.goLoop, Effect.setFinalizer])

/-! ## Teardown -/

/-- How a call ends: it returns, or it never gets past a channel operation. -/
inductive Completion
  | returned
  | blocked
  deriving DecidableEq, Repr

/-- The record of one `closeHysteria2` call: how it ended, the adapter
afterwards, whether the value sent on `tickerDone` was delivered to the rotation
loop, and the clients on which `CloseWithError` was called. -/
structure CloseRecord where
  completion : Completion
  after : Hysteria2
  loopStopped : Bool
  closed : List Nat
  deriving DecidableEq, Repr

/-- The function `closeHysteria2`, lines 107-114. A send on the nil channel never
completes (Go language specification); a send on a channel made without buffer
completes when a receiver takes the value, and `receiver` says whether the
rotation loop of lines 195-206 is still there to take it. -/
def closeHysteria2 (receiver : Bool) (h : Hysteria2) : CloseRecord :=
  let h1 := { h with ticker := { h.ticker with stopped := true } }
  match h1.tickerDone with
  | none => { completion := Completion.blocked, after := h1, loopStopped := false, closed := [] }
  | some _ =>
    if receiver then
      match h1.client with
      | some c =>
        { completion := Completion.returned, after := h1, loopStopped := true, closed := [c] }
      | none =>
        { completion := Completion.returned, after := h1, loopStopped := true, closed := [] }
    else { completion := Completion.blocked, after := h1, loopStopped := false, closed := [] }

/-! ## Traces of calls -/

/-- One call on the adapter: a stream dial (with the clock value it reads), a
datagram listen, or a tick of the rotation loop (with the random value and the
result of `hysteria2.NewClient` at that tick). -/
inductive Call
  | dial (now : Int)
  | listen
  | tick (r : Int) (result : NewClientResult)
  deriving DecidableEq, Repr

/-- The adapter after one call. -/
def step (E : Collaborators) (tlsConfig : TLSConfig) (h : Hysteria2) : Call → Hysteria2
  | Call.dial now => DialContext now h
  | Call.listen => ListenPacketContext h
  | Call.tick r result => (createNewClient E r (fun _ => result) tlsConfig h).1

/-- The adapter after a sequence of calls. -/
def run (E : Collaborators) (tlsConfig : TLSConfig) (h : Hysteria2) (calls : List Call) :
    Hysteria2 :=
  calls.foldl (step E tlsConfig) h

/-- The bounds kept by the two epochs as long as the clock stays at least two
below the largest `int64`. -/
def EpochInv (h : Hysteria2) : Prop :=
  -9223372036854775808 ≤ h.DialUpdateAt ∧ h.DialUpdateAt ≤ 9223372036854775805 ∧
    h.DialUpdateAt ≤ h.ListenUpdateAt ∧ h.ListenUpdateAt ≤ h.DialUpdateAt + 2

/-- The arms of the `switch` taken by the listen calls of a sequence of calls, in order. -/
def listenCases (E : Collaborators) (tlsConfig : TLSConfig) :
    Hysteria2 → List Call → List ListenCase
  | _, [] => []
  | h, Call.listen :: rest => listenCase h :: listenCases E tlsConfig (ListenPacketContext h) rest
  | h, c :: rest => listenCases E tlsConfig (step E tlsConfig h c) rest

/-- The clients that the dial calls of a sequence of calls adopt, in order. -/
def adoptedByDial (E : Collaborators) (tlsConfig : TLSConfig) :
    Hysteria2 → List Call → List ClientPtr
  | _, [] => []
  | h, Call.dial now :: rest =>
    if h.needUpdateDial then h.cclient :: adoptedByDial E tlsConfig (DialContext now h) rest
    else adoptedByDial E tlsConfig (DialContext now h) rest
  | h, c :: rest => adoptedByDial E tlsConfig (step E tlsConfig h c) rest

/-- The calls of a run of successful rotation ticks: each pair is the random value
of the tick and the identity of the client it creates. -/
def successfulTicks (ticks : List (Int × Nat)) : List Call :=
  ticks.map fun p => Call.tick p.1 (some p.2, none)

/-- The calls of a run of dial calls reading the given clock values. -/
def dialCalls (nows : List Int) : List Call :=
  nows.map Call.dial

/-! ## Concrete inputs -/

/-- Collaborators for the concrete runs: every rate string is 0 bits per second,
certificate resolution succeeds and leaves the configuration as it is. -/
def sampleCollaborators : Collaborators :=
  { StringToBps := fun _ => 0
    GetTLSConfig := fun c _ _ _ => Except.ok c
    NewByNameSingDialer := fun _ => 0 }

/-- An option with no obfuscation. -/
def sampleOption : Hysteria2Option :=
  { Interface := ""
    RoutingMark := 0
    IPVersion := ""
    DialerProxy := ""
    Name := "hy2"
    Server := "example.com"
    Port := 443
    Up := ""
    Down := ""
    Password := "secret"
    Obfs := ""
    ObfsPassword := ""
    SNI := ""
    SkipCertVerify := false
    Fingerprint := ""
    ALPN := []
    CustomCA := ""
    CustomCAString := ""
    CWND := 0
    UdpMTU := 0 }

/-- The TLS configuration that `NewHysteria2` builds for `sampleOption`. -/
def sampleTLS : TLSConfig :=
  { ServerName := "example.com"
    InsecureSkipVerify := false
    MinVersion := 772
    NextProtos := []
    Trust := 0 }

/-- The adapter that `NewHysteria2` returns for `sampleOption` when the first client
created is client 0 and the `createNewClient` call of line 194 creates client 1. -/
def sampleAdapter : Hysteria2 :=
  { base := { name := "hy2", addr := "example.com:443", udp := true, iface := "", rmark := 0 }
    option := { sampleOption with UdpMTU := 1197 }
    client := some 0
    dialer := 0
    needUpdateDial := true
    DialUpdateAt := 0
    ListenUpdateAt := 0
    cclient := some 1
    ticker := { seconds := 30, stopped := false }
    tickerDone := none }

/-- An option asking for salamander obfuscation with a password. -/
def salamanderOption : Hysteria2Option :=
  { sampleOption with Obfs := "salamander", ObfsPassword := "hunter2" }

/-- An option asking for salamander obfuscation without a password. -/
def noPasswordOption : Hysteria2Option :=
  { sampleOption with Obfs := "salamander", ObfsPassword := "" }

/-- An option asking for an obfuscation method that is not salamander. -/
def unknownObfsOption : Hysteria2Option :=
  { sampleOption with Obfs := "rot13", ObfsPassword := "hunter2" }

/-! ## Arithmetic of the embedding -/

lemma wrapInt64_of_range (x : Int) (h1 : -9223372036854775808 ≤ x)
    (h2 : x ≤ 9223372036854775807) : wrapInt64 x = x := by
  unfold wrapInt64
  omega

lemma wrapInt64_succ_ne (x : Int) : wrapInt64 (x + 1) ≠ x := by
  unfold wrapInt64
  omega

/-! ## Single calls -/

lemma createNewClient_fields (E : Collaborators) (r : Int)
    (nc : ClientOptions → NewClientResult) (tls : TLSConfig) (h : Hysteria2) :
    (createNewClient E r nc tls h).1.client = h.client ∧
      (createNewClient E r nc tls h).1.DialUpdateAt = h.DialUpdateAt ∧
      (createNewClient E r nc tls h).1.ListenUpdateAt = h.ListenUpdateAt ∧
      (createNewClient E r nc tls h).1.cclient = (nc (rotationClientOptions E r tls h)).1 := by
  unfold createNewClient
  cases hres : (nc (rotationClientOptions E r tls h)).2 <;> simp [hres]

lemma createNewClient_tickerDone (E : Collaborators) (r : Int)
    (nc : ClientOptions → NewClientResult) (tls : TLSConfig) (h : Hysteria2) :
    (createNewClient E r nc tls h).1.tickerDone = h.tickerDone := by
  unfold createNewClient
  cases hres : (nc (rotationClientOptions E r tls h)).2 <;> simp [hres]

lemma createNewClient_success (E : Collaborators) (r : Int)
    (nc : ClientOptions → NewClientResult) (tls : TLSConfig) (h : Hysteria2) (c : ClientPtr)
    (hres : nc (rotationClientOptions E r tls h) = (c, none)) :
    (createNewClient E r nc tls h).1 = { h with cclient := c, needUpdateDial := true } := by
  unfold createNewClient
  simp [hres]

lemma DialContext_idle (now : Int) (h : Hysteria2) (hn : h.needUpdateDial = false) :
    DialContext now h = h := by
  unfold DialContext
  simp [hn]

lemma ListenPacketContext_ite (h : Hysteria2) :
    ListenPacketContext h =
      if h.ListenUpdateAt = h.DialUpdateAt then
        { h with ListenUpdateAt := wrapInt64 (h.ListenUpdateAt + 1) }
      else if h.ListenUpdateAt = wrapInt64 (h.DialUpdateAt + 1) then
        { h with client := h.cclient, ListenUpdateAt := wrapInt64 (h.ListenUpdateAt + 1) }
      else h := by
  unfold ListenPacketContext listenCase
  split_ifs <;> rfl

lemma run_append (E : Collaborators) (tls : TLSConfig) (h : Hysteria2) (xs ys : List Call) :
    run E tls h (xs ++ ys) = run E tls (run E tls h xs) ys := by
  unfold run
  exact List.foldl_append _ _ _ _

lemma run_cons (E : Collaborators) (tls : TLSConfig) (h : Hysteria2) (c : Call)
    (cs : List Call) : run E tls h (c :: cs) = run E tls (step E tls h c) cs := rfl

lemma run_dials_idle (E : Collaborators) (tls : TLSConfig) (h : Hysteria2)
    (hn : h.needUpdateDial = false) (nows : List Int) :
    run E tls h (nows.map Call.dial) = h := by
  induction nows with
  | nil => rfl
  | cons now rest ih =>
    simp only [List.map_cons, run_cons, step]
    rw [DialContext_idle now h hn]
    exact ih

/-! ## The epoch invariant -/

lemma EpochInv_step (E : Collaborators) (tls : TLSConfig) (h : Hysteria2) (c : Call)
    (hinv : EpochInv h)
    (hc : ∀ now, c = Call.dial now →
      -9223372036854775808 ≤ now ∧ now ≤ 9223372036854775805) :
    EpochInv (step E tls h c) := by
  obtain ⟨h1, h2, h3, h4⟩ := hinv
  cases c with
  | dial now =>
    obtain ⟨a, b⟩ := hc now rfl
    show EpochInv (DialContext now h)
    unfold DialContext EpochInv
    split
    · simp only
      omega
    · exact ⟨h1, h2, h3, h4⟩
  | listen =>
    show EpochInv (ListenPacketContext h)
    rw [ListenPacketContext_ite]
    unfold EpochInv
    split_ifs with e1 e2
    · simp only
      rw [wrapInt64_of_range _ (by omega) (by omega)]
      omega
    · simp only
      rw [wrapInt64_of_range _ (by omega) (by omega)] at e2
      rw [wrapInt64_of_range _ (by omega) (by omega)]
      omega
    · exact ⟨h1, h2, h3, h4⟩
  | tick r res =>
    obtain ⟨_, e2, e3, _⟩ := createNewClient_fields E r (fun _ => res) tls h
    show EpochInv (createNewClient E r (fun _ => res) tls h).1
    unfold EpochInv
    rw [e2, e3]
    exact ⟨h1, h2, h3, h4⟩

lemma EpochInv_run (E : Collaborators) (tls : TLSConfig) (calls : List Call) :
    ∀ h : Hysteria2, EpochInv h →
      (∀ now, Call.dial now ∈ calls →
        -9223372036854775808 ≤ now ∧ now ≤ 9223372036854775805) →
      EpochInv (run E tls h calls) := by
  induction calls with
  | nil => intro h hinv _; exact hinv
  | cons c cs ih =>
    intro h hinv hts
    rw [run_cons]
    apply ih
    · apply EpochInv_step E tls h c hinv
      intro now e
      exact hts now (by simp [e])
    · intro now hm
      exact hts now (List.mem_cons_of_mem _ hm)

/-! ## Adoption by the dial path -/

lemma step_tick_success (E : Collaborators) (tls : TLSConfig) (h : Hysteria2) (r : Int)
    (c : ClientPtr) :
    step E tls h (Call.tick r (c, none)) = { h with cclient := c, needUpdateDial := true } :=
  createNewClient_success E r (fun _ => (c, none)) tls h c rfl

lemma DialContext_pending (now : Int) (h : Hysteria2) (hn : h.needUpdateDial = true) :
    DialContext now h =
      { h with
        client := h.cclient
        needUpdateDial := false
        DialUpdateAt := now
        ListenUpdateAt := now } := by
  unfold DialContext
  simp [hn]

lemma run_dials_after_pending (E : Collaborators) (tls : TLSConfig) (h : Hysteria2)
    (hn : h.needUpdateDial = true) (now : Int) (nows : List Int) (j : Nat) :
    run E tls h ((dialCalls (now :: nows)).take (j + 1)) = DialContext now h := by
  have hidle : (DialContext now h).needUpdateDial = false := by
    rw [DialContext_pending now h hn]
  have : (dialCalls (now :: nows)).take (j + 1) = Call.dial now :: (nows.take j).map Call.dial := by
    simp [dialCalls, List.map_take]
  rw [this, run_cons]
  exact run_dials_idle E tls (DialContext now h) hidle (nows.take j)

/-! ## The listen path after an adoption by the dial path -/

lemma listen_at_equal (h : Hysteria2) (hL : h.ListenUpdateAt = h.DialUpdateAt) :
    listenCase h = ListenCase.equal ∧
      (ListenPacketContext h).ListenUpdateAt = wrapInt64 (h.DialUpdateAt + 1) ∧
      (ListenPacketContext h).DialUpdateAt = h.DialUpdateAt := by
  rw [ListenPacketContext_ite]
  unfold listenCase
  simp [hL]

lemma listen_at_one_ahead (h : Hysteria2)
    (hL : h.ListenUpdateAt = wrapInt64 (h.DialUpdateAt + 1)) :
    listenCase h = ListenCase.adopt ∧
      (ListenPacketContext h).ListenUpdateAt = wrapInt64 (h.ListenUpdateAt + 1) ∧
      (ListenPacketContext h).DialUpdateAt = h.DialUpdateAt ∧
      (ListenPacketContext h).client = h.cclient ∧
      (ListenPacketContext h).cclient = h.cclient ∧
      (ListenPacketContext h).needUpdateDial = h.needUpdateDial := by
  have hne : h.ListenUpdateAt ≠ h.DialUpdateAt := by
    rw [hL]
    exact wrapInt64_succ_ne _
  have hcase : listenCase h = ListenCase.adopt := by
    unfold listenCase
    rw [if_neg hne, if_pos hL]
  refine ⟨hcase, ?_⟩
  rw [ListenPacketContext_ite, if_neg hne, if_pos hL]
  exact ⟨rfl, rfl, rfl, rfl, rfl⟩

lemma listen_at_two_ahead (h : Hysteria2)
    (hL : h.ListenUpdateAt = wrapInt64 (wrapInt64 (h.DialUpdateAt + 1) + 1)) :
    listenCase h = ListenCase.default ∧ ListenPacketContext h = h := by
  have hne : h.ListenUpdateAt ≠ h.DialUpdateAt := by
    rw [hL]
    unfold wrapInt64
    omega
  have hne1 : h.ListenUpdateAt ≠ wrapInt64 (h.DialUpdateAt + 1) := by
    rw [hL]
    exact wrapInt64_succ_ne _
  have hcase : listenCase h = ListenCase.default := by
    unfold listenCase
    rw [if_neg hne, if_neg hne1]
  refine ⟨hcase, ?_⟩
  rw [ListenPacketContext_ite, if_neg hne, if_neg hne1]

lemma listenCases_two_ahead (E : Collaborators) (tls : TLSConfig) (calls : List Call) :
    ∀ h : Hysteria2, (∀ t, Call.dial t ∉ calls) →
      h.ListenUpdateAt = wrapInt64 (wrapInt64 (h.DialUpdateAt + 1) + 1) →
      ∀ c ∈ listenCases E tls h calls, c = ListenCase.default := by
  induction calls with
  | nil => intro h _ _ c hc; simp [listenCases] at hc
  | cons a rest ih =>
    intro h hnd hL c hc
    have hrest : ∀ t, Call.dial t ∉ rest := fun t hm => hnd t (List.mem_cons_of_mem _ hm)
    cases a with
    | dial t => exact absurd (List.mem_cons_self _ _) (hnd t)
    | listen =>
      obtain ⟨e1, e2⟩ := listen_at_two_ahead h hL
      simp only [listenCases, List.mem_cons] at hc
      rcases hc with hc | hc
      · rw [hc, e1]
      · rw [e2] at hc
        exact ih h hrest hL c hc
    | tick r res =>
      obtain ⟨_, e2, e3, _⟩ := createNewClient_fields E r (fun _ => res) tls h
      simp only [listenCases] at hc
      refine ih (step E tls h (Call.tick r res)) hrest ?_ c hc
      show (createNewClient E r (fun _ => res) tls h).1.ListenUpdateAt = _
      rw [e3, hL]
      show _ = wrapInt64 (wrapInt64 ((createNewClient E r (fun _ => res) tls h).1.DialUpdateAt
        + 1) + 1)
      rw [e2]

lemma listenCases_one_ahead (E : Collaborators) (tls : TLSConfig) (calls : List Call) :
    ∀ h : Hysteria2, (∀ t, Call.dial t ∉ calls) →
      h.ListenUpdateAt = wrapInt64 (h.DialUpdateAt + 1) →
      listenCases E tls h calls = [] ∨
        ∃ rest, listenCases E tls h calls = ListenCase.adopt :: rest ∧
          ∀ c ∈ rest, c = ListenCase.default := by
  induction calls with
  | nil => intro h _ _; left; rfl
  | cons a rest ih =>
    intro h hnd hL
    have hrest : ∀ t, Call.dial t ∉ rest := fun t hm => hnd t (List.mem_cons_of_mem _ hm)
    cases a with
    | dial t => exact absurd (List.mem_cons_self _ _) (hnd t)
    | listen =>
      obtain ⟨e1, e2, e3, _⟩ := listen_at_one_ahead h hL
      right
      refine ⟨listenCases E tls (ListenPacketContext h) rest, ?_, ?_⟩
      · simp only [listenCases, e1]
      · apply listenCases_two_ahead E tls rest _ hrest
        rw [e2, e3, hL]
    | tick r res =>
      obtain ⟨_, e2, e3, _⟩ := createNewClient_fields E r (fun _ => res) tls h
      simp only [listenCases]
      apply ih (step E tls h (Call.tick r res)) hrest
      show (createNewClient E r (fun _ => res) tls h).1.ListenUpdateAt =
        wrapInt64 ((createNewClient E r (fun _ => res) tls h).1.DialUpdateAt + 1)
      rw [e2, e3, hL]

lemma listenCases_equal (E : Collaborators) (tls : TLSConfig) (calls : List Call) :
    ∀ h : Hysteria2, (∀ t, Call.dial t ∉ calls) →
      h.ListenUpdateAt = h.DialUpdateAt →
      listenCases E tls h calls = [] ∨
        listenCases E tls h calls = [ListenCase.equal] ∨
        ∃ rest, listenCases E tls h calls = ListenCase.equal :: ListenCase.adopt :: rest ∧
          ∀ c ∈ rest, c = ListenCase.default := by
  induction calls with
  | nil => intro h _ _; left; rfl
  | cons a rest ih =>
    intro h hnd hL
    have hrest : ∀ t, Call.dial t ∉ rest := fun t hm => hnd t (List.mem_cons_of_mem _ hm)
    cases a with
    | dial t => exact absurd (List.mem_cons_self _ _) (hnd t)
    | listen =>
      obtain ⟨e1, e2, e3⟩ := listen_at_equal h hL
      right
      have hnext := listenCases_one_ahead E tls rest (ListenPacketContext h) hrest
        (by rw [e2, e3])
      rcases hnext with hnil | ⟨tl, htl, hdef⟩
      · left
        simp only [listenCases, e1, hnil]
      · right
        exact ⟨tl, by simp only [listenCases, e1, htl], hdef⟩
    | tick r res =>
      obtain ⟨_, e2, e3, _⟩ := createNewClient_fields E r (fun _ => res) tls h
      simp only [listenCases]
      apply ih (step E tls h (Call.tick r res)) hrest
      show (createNewClient E r (fun _ => res) tls h).1.ListenUpdateAt =
        (createNewClient E r (fun _ => res) tls h).1.DialUpdateAt
      rw [e2, e3, hL]

lemma listenCases_length (E : Collaborators) (tls : TLSConfig) (calls : List Call) :
    ∀ h : Hysteria2, (listenCases E tls h calls).length = calls.count Call.listen := by
  induction calls with
  | nil => intro h; rfl
  | cons a rest ih =>
    intro h
    cases a with
    | dial t => simp [listenCases, ih]
    | listen => simp [listenCases, ih]
    | tick r res => simp [listenCases, ih]

/-! ## Construction -/

lemma length_pos_of_ne_empty (s : String) (hs : s ≠ "") : 0 < s.length := by
  cases s with
  | mk data =>
    cases data with
    | nil => exact absurd rfl hs
    | cons a rest => simp [String.length]

lemma checkObfs_empty (option : Hysteria2Option) (hs : option.Obfs = "") :
    checkObfs option = none := by
  unfold checkObfs
  simp [hs]

lemma NewHysteria2_tickerDone (E : Collaborators) (r0 : Int)
    (nc0 : ClientOptions → NewClientResult) (r1 : Int) (nc1 : ClientOptions → NewClientResult)
    (option : Hysteria2Option) (h : Hysteria2)
    (hok : (NewHysteria2 E r0 nc0 r1 nc1 option).1 = Except.ok h) :
    h.tickerDone = none := by
  unfold NewHysteria2 at hok
  dsimp only at hok
  split at hok
  · simp at hok
  · split at hok
    · simp at hok
    · split at hok
      · simp at hok
      · simp only [Except.ok.injEq] at hok
        rw [← hok, createNewClient_tickerDone]
        rfl

/-! ## Claims -/

/-- C1 (as amended): from an adapter whose two epochs are 0, after every call of
every sequence of dial calls, listen calls and rotation ticks whose dial calls
read a clock value between the smallest `int64` and the largest `int64` minus 2,
`DialUpdateAt ≤ ListenUpdateAt ≤ DialUpdateAt + 2`. -/
theorem epochs_stay_within_two (E : Collaborators) (tls : TLSConfig) (h : Hysteria2)
    (calls : List Call)
    (h0 : h.DialUpdateAt = 0 ∧ h.ListenUpdateAt = 0)
    (hts : ∀ now, Call.dial now ∈ calls →
      -9223372036854775808 ≤ now ∧ now ≤ 9223372036854775805)
    (k : Nat) :
    (run E tls h (calls.take k)).DialUpdateAt ≤ (run E tls h (calls.take k)).ListenUpdateAt ∧
      (run E tls h (calls.take k)).ListenUpdateAt ≤
        (run E tls h (calls.take k)).DialUpdateAt + 2 := by
  have hinv : EpochInv h := by
    unfold EpochInv
    omega
  have := EpochInv_run E tls (calls.take k) h hinv
    (fun now hm => hts now (List.mem_of_mem_take hm))
  exact ⟨this.2.2.1, this.2.2.2⟩

/-- C1, witness of the amended statement: a run with ticks, dials and listens. -/
theorem epochs_stay_within_two_witness :
    (sampleAdapter.DialUpdateAt = 0 ∧ sampleAdapter.ListenUpdateAt = 0) ∧
      (run sampleCollaborators sampleTLS sampleAdapter
          ([Call.listen, Call.dial 1700000000000, Call.tick 7 (some 2, none), Call.listen,
            Call.listen, Call.listen].take 5)).DialUpdateAt ≤
        (run sampleCollaborators sampleTLS sampleAdapter
          ([Call.listen, Call.dial 1700000000000, Call.tick 7 (some 2, none), Call.listen,
            Call.listen, Call.listen].take 5)).ListenUpdateAt ∧
      (run sampleCollaborators sampleTLS sampleAdapter
          ([Call.listen, Call.dial 1700000000000, Call.tick 7 (some 2, none), Call.listen,
            Call.listen, Call.listen].take 5)).ListenUpdateAt ≤
        (run sampleCollaborators sampleTLS sampleAdapter
          ([Call.listen, Call.dial 1700000000000, Call.tick 7 (some 2, none), Call.listen,
            Call.listen, Call.listen].take 5)).DialUpdateAt + 2 :=
  ⟨⟨rfl, rfl⟩,
    epochs_stay_within_two sampleCollaborators sampleTLS sampleAdapter
      [Call.listen, Call.dial 1700000000000, Call.tick 7 (some 2, none), Call.listen,
        Call.listen, Call.listen]
      ⟨rfl, rfl⟩
      (by
        intro now hm
        simp only [List.mem_cons, Call.dial.injEq, List.mem_singleton, reduceCtorEq,
          false_or, or_false, List.not_mem_nil] at hm
        subst hm
        decide)
      5⟩

/-- C1, counterexample of the claim as stated: on the adapter that the
constructor returns, two listen calls in a row leave `DialUpdateAt = 0` and
`ListenUpdateAt = 2`, which is more than `DialUpdateAt + 1`. -/
theorem listen_twice_exceeds_one :
    sampleAdapter.DialUpdateAt = 0 ∧ sampleAdapter.ListenUpdateAt = 0 ∧
      (run sampleCollaborators sampleTLS sampleAdapter
        [Call.listen, Call.listen]).DialUpdateAt = 0 ∧
      (run sampleCollaborators sampleTLS sampleAdapter
        [Call.listen, Call.listen]).ListenUpdateAt = 2 ∧
      ¬ ((run sampleCollaborators sampleTLS sampleAdapter
          [Call.listen, Call.listen]).ListenUpdateAt ≤
        (run sampleCollaborators sampleTLS sampleAdapter
          [Call.listen, Call.listen]).DialUpdateAt + 1) := by
  decide

/-- C2: after one successful `createNewClient` whose candidate `c` differs from the
active client, in a run of `N ≥ 1` dial calls (clock values `now :: nows`) the first
call makes `c` the active client, clears `needUpdateDial` and sets both epochs to its
clock value, and after each of the first `j + 1` calls, for every `j`, the adapter is
exactly the adapter left by the first call: the active client changes once. -/
theorem dial_adopts_candidate_once (E : Collaborators) (tls : TLSConfig) (h : Hysteria2)
    (r : Int) (nc : ClientOptions → NewClientResult) (c : Nat)
    (hres : nc (rotationClientOptions E r tls h) = (some c, none))
    (hne : h.client ≠ some c) (now : Int) (nows : List Int) :
    (createNewClient E r nc tls h).1.client = h.client ∧
      (DialContext now (createNewClient E r nc tls h).1).client = some c ∧
      (DialContext now (createNewClient E r nc tls h).1).client ≠ h.client ∧
      (DialContext now (createNewClient E r nc tls h).1).needUpdateDial = false ∧
      (DialContext now (createNewClient E r nc tls h).1).DialUpdateAt = now ∧
      (DialContext now (createNewClient E r nc tls h).1).ListenUpdateAt = now ∧
      ∀ j : Nat,
        run E tls (createNewClient E r nc tls h).1 ((dialCalls (now :: nows)).take (j + 1)) =
          DialContext now (createNewClient E r nc tls h).1 := by
  have hs := createNewClient_success E r nc tls h (some c) hres
  have hn : (createNewClient E r nc tls h).1.needUpdateDial = true := by rw [hs]
  have hd := DialContext_pending now _ hn
  refine ⟨by rw [hs], ?_, ?_, by rw [hd], by rw [hd], by rw [hd], ?_⟩
  · rw [hd, hs]
  · rw [hd, hs]
    exact fun e => hne e.symm
  · intro j
    exact run_dials_after_pending E tls _ hn now nows j

/-- C2, witness: the adapter returned by the constructor, a tick creating client 2,
then three dial calls. -/
theorem dial_adopts_candidate_once_witness :
    ((fun _ => (some 2, none) : ClientOptions → NewClientResult)
        (rotationClientOptions sampleCollaborators 7 sampleTLS sampleAdapter) = (some 2, none) ∧
      sampleAdapter.client ≠ some 2) ∧
    ((createNewClient sampleCollaborators 7 (fun _ => (some 2, none)) sampleTLS
        sampleAdapter).1.client = sampleAdapter.client ∧
      (DialContext 100 (createNewClient sampleCollaborators 7 (fun _ => (some 2, none)) sampleTLS
        sampleAdapter).1).client = some 2 ∧
      (DialContext 100 (createNewClient sampleCollaborators 7 (fun _ => (some 2, none)) sampleTLS
        sampleAdapter).1).client ≠ sampleAdapter.client ∧
      (DialContext 100 (createNewClient sampleCollaborators 7 (fun _ => (some 2, none)) sampleTLS
        sampleAdapter).1).needUpdateDial = false ∧
      (DialContext 100 (createNewClient sampleCollaborators 7 (fun _ => (some 2, none)) sampleTLS
        sampleAdapter).1).DialUpdateAt = 100 ∧
      (DialContext 100 (createNewClient sampleCollaborators 7 (fun _ => (some 2, none)) sampleTLS
        sampleAdapter).1).ListenUpdateAt = 100 ∧
      ∀ j : Nat,
        run sampleCollaborators sampleTLS
            (createNewClient sampleCollaborators 7 (fun _ => (some 2, none)) sampleTLS
              sampleAdapter).1
            ((dialCalls (100 :: [200, 300])).take (j + 1)) =
          DialContext 100 (createNewClient sampleCollaborators 7 (fun _ => (some 2, none))
            sampleTLS sampleAdapter).1) :=
  ⟨⟨rfl, by decide⟩,
    dial_adopts_candidate_once sampleCollaborators sampleTLS sampleAdapter 7
      (fun _ => (some 2, none)) 2 rfl (by decide) 100 [200, 300]⟩

/-- C4: after `n ≥ 1` successful ticks in a row (the candidates of `earlier`, then
`cn`), with no dial or listen call in between, the active client after each of the
following dial calls is `cn`, and it is none of the earlier candidates other than
`cn`. -/
theorem latest_candidate_is_adopted (E : Collaborators) (tls : TLSConfig) (h : Hysteria2)
    (earlier : List (Int × Nat)) (r : Int) (cn : Nat) (now : Int) (nows : List Int) (j : Nat) :
    (run E tls (run E tls h (successfulTicks (earlier ++ [(r, cn)])))
        ((dialCalls (now :: nows)).take (j + 1))).client = some cn ∧
      ∀ p ∈ earlier, p.2 ≠ cn →
        (run E tls (run E tls h (successfulTicks (earlier ++ [(r, cn)])))
          ((dialCalls (now :: nows)).take (j + 1))).client ≠ some p.2 := by
  have hticks : run E tls h (successfulTicks (earlier ++ [(r, cn)])) =
      { run E tls h (successfulTicks earlier) with
        cclient := some cn, needUpdateDial := true } := by
    unfold successfulTicks
    rw [List.map_append, run_append]
    exact step_tick_success E tls _ r (some cn)
  have hn : (run E tls h (successfulTicks (earlier ++ [(r, cn)]))).needUpdateDial = true := by
    rw [hticks]
  have hcl : (run E tls (run E tls h (successfulTicks (earlier ++ [(r, cn)])))
      ((dialCalls (now :: nows)).take (j + 1))).client = some cn := by
    rw [run_dials_after_pending E tls _ hn now nows j, DialContext_pending now _ hn, hticks]
  refine ⟨hcl, ?_⟩
  intro p _ hp
  rw [hcl]
  intro e
  exact hp (Option.some.inj e).symm

/-- C4, witness: three ticks creating clients 2, 3 and 4, then two dial calls. -/
theorem latest_candidate_is_adopted_witness :
    (run sampleCollaborators sampleTLS
        (run sampleCollaborators sampleTLS sampleAdapter
          (successfulTicks ([(10, 2), (20, 3)] ++ [(30, 4)])))
        ((dialCalls (100 :: [200])).take (1 + 1))).client = some 4 ∧
      ∀ p ∈ [((10 : Int), 2), (20, 3)], p.2 ≠ 4 →
        (run sampleCollaborators sampleTLS
          (run sampleCollaborators sampleTLS sampleAdapter
            (successfulTicks ([(10, 2), (20, 3)] ++ [(30, 4)])))
          ((dialCalls (100 :: [200])).take (1 + 1))).client ≠ some p.2 :=
  latest_candidate_is_adopted sampleCollaborators sampleTLS sampleAdapter [(10, 2), (20, 3)] 30 4
    100 [200] 1

/-- C5: right after a dial call that adopted a candidate the two epochs are equal,
and in every following sequence of listen calls and rotation ticks without a dial
call the listen path takes its adoption arm at the `k`-th listen call for one
`k` with `1 ≤ k ≤ 2` (the second call) and at no other listen call; the listen
calls of the sequence are all accounted for. -/
theorem listen_adopts_within_two_calls (E : Collaborators) (tls : TLSConfig) (h0 : Hysteria2)
    (now : Int) (hn : h0.needUpdateDial = true) :
    (DialContext now h0).ListenUpdateAt = (DialContext now h0).DialUpdateAt ∧
      ∃ k : Nat, 1 ≤ k ∧ k ≤ 2 ∧
        ∀ calls : List Call, (∀ t, Call.dial t ∉ calls) →
          (listenCases E tls (DialContext now h0) calls).length = calls.count Call.listen ∧
          ∀ (i : Nat) (c : ListenCase),
            (listenCases E tls (DialContext now h0) calls)[i]? = some c →
              (c = ListenCase.adopt ↔ i + 1 = k) := by
  have hL : (DialContext now h0).ListenUpdateAt = (DialContext now h0).DialUpdateAt := by
    rw [DialContext_pending now h0 hn]
  refine ⟨hL, 2, by omega, le_refl 2, ?_⟩
  intro calls hnd
  refine ⟨listenCases_length E tls calls _, ?_⟩
  intro i c hic
  rcases listenCases_equal E tls calls _ hnd hL with e | e | ⟨rest, e, hdef⟩
  · rw [e] at hic
    simp at hic
  · rw [e] at hic
    cases i with
    | zero =>
      simp at hic
      subst hic
      simp
    | succ n => simp at hic
  · rw [e] at hic
    match i, hic with
    | 0, hic =>
      simp at hic
      subst hic
      simp
    | 1, hic =>
      simp at hic
      subst hic
      simp
    | n + 2, hic =>
      simp only [List.getElem?_cons_succ] at hic
      have hm : c ∈ rest := List.getElem?_mem hic
      rw [hdef c hm]
      simp

/-- C5, witness: the constructor's adapter adopts client 1 at a dial call; of the
three listen calls that follow (a tick in between), the second takes the adoption arm. -/
theorem listen_adopts_within_two_calls_witness :
    sampleAdapter.needUpdateDial = true ∧
      listenCases sampleCollaborators sampleTLS (DialContext 100 sampleAdapter)
          [Call.listen, Call.tick 7 (some 2, none), Call.listen, Call.listen] =
        [ListenCase.equal, ListenCase.adopt, ListenCase.default] ∧
      ((DialContext 100 sampleAdapter).ListenUpdateAt =
          (DialContext 100 sampleAdapter).DialUpdateAt ∧
        ∃ k : Nat, 1 ≤ k ∧ k ≤ 2 ∧
          ∀ calls : List Call, (∀ t, Call.dial t ∉ calls) →
            (listenCases sampleCollaborators sampleTLS (DialContext 100 sampleAdapter)
              calls).length = calls.count Call.listen ∧
            ∀ (i : Nat) (c : ListenCase),
              (listenCases sampleCollaborators sampleTLS (DialContext 100 sampleAdapter)
                calls)[i]? = some c →
                (c = ListenCase.adopt ↔ i + 1 = k)) :=
  ⟨rfl, by decide,
    listen_adopts_within_two_calls sampleCollaborators sampleTLS sampleAdapter 100 rfl⟩

/-- C6: with a non-empty `Obfs`, an empty `ObfsPassword` makes `NewHysteria2` return
the error "missing obfs password" (which contains "obfs password"), and a non-empty
`ObfsPassword` with an `Obfs` other than salamander makes it return
"unknown obfs type: " followed by `Obfs`; in both cases nothing has been created.
With an empty `Obfs` the check passes and an error, if any, is the one returned by
`ca.GetTLSConfig` or by `hysteria2.NewClient`. -/
theorem obfs_settings_checked_first (E : Collaborators) (r0 : Int)
    (nc0 : ClientOptions → NewClientResult) (r1 : Int) (nc1 : ClientOptions → NewClientResult)
    (option : Hysteria2Option) :
    (option.Obfs ≠ "" → option.ObfsPassword = "" →
        NewHysteria2 E r0 nc0 r1 nc1 option = (Except.error "missing obfs password", []) ∧
          ∃ pre post : String, "missing obfs password" = pre ++ "obfs password" ++ post) ∧
      (option.Obfs ≠ "" → option.ObfsPassword ≠ "" → option.Obfs ≠ ObfsTypeSalamander →
        NewHysteria2 E r0 nc0 r1 nc1 option =
          (Except.error ("unknown obfs type: " ++ option.Obfs), [])) ∧
      (option.Obfs = "" →
        checkObfs option = none ∧
          ∀ e : String, (NewHysteria2 E r0 nc0 r1 nc1 option).1 = Except.error e →
            (∃ c : TLSConfig,
                E.GetTLSConfig c option.Fingerprint option.CustomCA option.CustomCAString =
                  Except.error e) ∨
              ∃ o : ClientOptions, (nc0 o).2 = some e) := by
  refine ⟨?_, ?_, ?_⟩
  · intro hobfs hpw
    have hchk : checkObfs option = some "missing obfs password" := by
      unfold checkObfs
      rw [if_pos (length_pos_of_ne_empty _ hobfs), if_pos hpw]
    refine ⟨?_, "missing ", "", by decide⟩
    unfold NewHysteria2
    simp only [hchk]
  · intro hobfs hpw hty
    have hchk : checkObfs option = some ("unknown obfs type: " ++ option.Obfs) := by
      unfold checkObfs
      rw [if_pos (length_pos_of_ne_empty _ hobfs), if_neg hpw, if_neg hty]
    unfold NewHysteria2
    simp only [hchk]
  · intro hobfs
    have hchk := checkObfs_empty option hobfs
    refine ⟨hchk, ?_⟩
    intro e he
    unfold NewHysteria2 at he
    simp only [hchk] at he
    split at he
    · rename_i err herr
      simp only [Except.error.injEq] at he
      left
      exact ⟨_, he ▸ herr⟩
    · split at he
      · rename_i p err hp
        simp only [Except.error.injEq] at he
        right
        exact ⟨_, by rw [hp, he]⟩
      · simp at he

/-- C6, witness: salamander without a password, an unknown method with a password,
and no obfuscation at all. -/
theorem obfs_settings_checked_first_witness :
    (noPasswordOption.Obfs = "salamander" ∧ noPasswordOption.ObfsPassword = "" ∧
        NewHysteria2 sampleCollaborators 0 (fun _ => (some 0, none)) 1 (fun _ => (some 1, none))
            noPasswordOption =
          (Except.error "missing obfs password", [])) ∧
      (unknownObfsOption.Obfs = "rot13" ∧ unknownObfsOption.ObfsPassword = "hunter2" ∧
        NewHysteria2 sampleCollaborators 0 (fun _ => (some 0, none)) 1 (fun _ => (some 1, none))
            unknownObfsOption =
          (Except.error ("unknown obfs type: " ++ unknownObfsOption.Obfs), [])) ∧
      (sampleOption.Obfs = "" ∧ checkObfs sampleOption = none) :=
  ⟨⟨rfl, rfl,
      ((obfs_settings_checked_first sampleCollaborators 0 (fun _ => (some 0, none)) 1
        (fun _ => (some 1, none)) noPasswordOption).1 (by decide) rfl).1⟩,
    ⟨rfl, rfl,
      (obfs_settings_checked_first sampleCollaborators 0 (fun _ => (some 0, none)) 1
        (fun _ => (some 1, none)) unknownObfsOption).2.1 (by decide) (by decide) (by decide)⟩,
    ⟨rfl,
      ((obfs_settings_checked_first sampleCollaborators 0 (fun _ => (some 0, none)) 1
        (fun _ => (some 1, none)) sampleOption).2.2 rfl).1⟩⟩

/-- C7: for every value `0 ≤ r < 4000` of `rand.Int63n(4000)` the port `50005 + r`
lies in 50005..54004, and the port placed in the client options, at construction and
at every rotation, is exactly `50005 + r` (the `uint16` conversion loses nothing);
every port of 50005..54004 is the port of the client options for some such `r`. -/
theorem hopping_port_in_range (E : Collaborators) (tls : TLSConfig) (h : Hysteria2)
    (singDialer : Nat) (option : Hysteria2Option) :
    (∀ r : Int, 0 ≤ r → r < 4000 →
        50005 ≤ wrapInt64 (50005 + r) ∧ wrapInt64 (50005 + r) ≤ 54004 ∧
          toUint16 (wrapInt64 (50005 + r)) = 50005 + r ∧
          (rotationClientOptions E r tls h).ServerAddress.2 = 50005 + r ∧
          (constructionClientOptions E r tls singDialer option).ServerAddress.2 = 50005 + r) ∧
      ∀ p : Int, 50005 ≤ p → p ≤ 54004 →
        ∃ r : Int, 0 ≤ r ∧ r < 4000 ∧
          (rotationClientOptions E r tls h).ServerAddress.2 = p ∧
          (constructionClientOptions E r tls singDialer option).ServerAddress.2 = p := by
  have key : ∀ r : Int, 0 ≤ r → r < 4000 →
      wrapInt64 (50005 + r) = 50005 + r ∧ toUint16 (wrapInt64 (50005 + r)) = 50005 + r := by
    intro r h0 h1
    have hw : wrapInt64 (50005 + r) = 50005 + r :=
      wrapInt64_of_range _ (by omega) (by omega)
    refine ⟨hw, ?_⟩
    rw [hw]
    unfold toUint16
    omega
  refine ⟨?_, ?_⟩
  · intro r h0 h1
    obtain ⟨hw, hu⟩ := key r h0 h1
    refine ⟨by omega, by omega, hu, hu, hu⟩
  · intro p h0 h1
    obtain ⟨_, hu⟩ := key (p - 50005) (by omega) (by omega)
    have hp : 50005 + (p - 50005) = p := by omega
    rw [hp] at hu
    refine ⟨p - 50005, by omega, by omega, ?_, ?_⟩
    · show toUint16 (wrapInt64 (50005 + (p - 50005))) = p
      rw [hp]
      exact hu
    · show toUint16 (wrapInt64 (50005 + (p - 50005))) = p
      rw [hp]
      exact hu

/-- C7, witness: the largest random value gives port 54004, and port 50005 is reached. -/
theorem hopping_port_in_range_witness :
    ((0 : Int) ≤ 3999 ∧ (3999 : Int) < 4000 ∧
        (rotationClientOptions sampleCollaborators 3999 sampleTLS sampleAdapter).ServerAddress.2 =
          54004) ∧
      ((50005 : Int) ≤ 50005 ∧ (50005 : Int) ≤ 54004 ∧
        ∃ r : Int, 0 ≤ r ∧ r < 4000 ∧
          (rotationClientOptions sampleCollaborators r sampleTLS sampleAdapter).ServerAddress.2 =
            50005 ∧
          (constructionClientOptions sampleCollaborators r sampleTLS 0
            sampleOption).ServerAddress.2 = 50005) :=
  ⟨⟨by decide, by decide,
      ((hopping_port_in_range sampleCollaborators sampleTLS sampleAdapter 0 sampleOption).1 3999
        (by decide) (by decide)).2.2.2.1⟩,
    ⟨by decide, by decide,
      (hopping_port_in_range sampleCollaborators sampleTLS sampleAdapter 0 sampleOption).2 50005
        (by decide) (by decide)⟩⟩

/-- C10: every client-options value that `NewHysteria2` hands to `hysteria2.NewClient`
has an empty `SalamanderPassword`, whatever the option's `ObfsPassword`; so have the
options built at construction and at every rotation, and `createNewClient` only
consults `hysteria2.NewClient` at options whose `SalamanderPassword` is empty. -/
theorem salamander_password_never_passed (E : Collaborators) (r0 : Int)
    (nc0 : ClientOptions → NewClientResult) (r1 : Int) (nc1 : ClientOptions → NewClientResult)
    (option : Hysteria2Option) :
    (∀ o : ClientOptions, Effect.newClient o ∈ (NewHysteria2 E r0 nc0 r1 nc1 option).2 →
        o.SalamanderPassword = "") ∧
      (∀ (r : Int) (tls : TLSConfig) (d : Nat),
        (constructionClientOptions E r tls d option).SalamanderPassword = "") ∧
      (∀ (r : Int) (tls : TLSConfig) (h : Hysteria2),
        (rotationClientOptions E r tls h).SalamanderPassword = "") ∧
      ∀ (r : Int) (nc : ClientOptions → NewClientResult) (tls : TLSConfig) (h : Hysteria2),
        createNewClient E r nc tls h =
          createNewClient E r (fun o => nc { o with SalamanderPassword := "" }) tls h := by
  refine ⟨?_, fun _ _ _ => rfl, fun _ _ _ => rfl, fun _ _ _ _ => rfl⟩
  intro o ho
  unfold NewHysteria2 at ho
  dsimp only at ho
  split at ho
  · simp at ho
  · split at ho
    · simp at ho
    · split at ho
      · simp only [List.mem_cons, reduceCtorEq, Effect.newClient.injEq, List.mem_singleton,
          false_or, List.not_mem_nil, or_false] at ho
        rw [ho]
        rfl
      · simp only [List.mem_append, List.mem_cons, reduceCtorEq, Effect.newClient.injEq,
          List.mem_singleton, false_or, List.not_mem_nil, or_false] at ho
        rcases ho with ho | ho <;> rw [ho] <;> rfl

/-- C10, witness: the constructor accepts salamander obfuscation with the password
"hunter2", and the options of both clients it creates have an empty `SalamanderPassword`. -/
theorem salamander_password_never_passed_witness :
    salamanderOption.ObfsPassword = "hunter2" ∧
      (∃ h : Hysteria2,
        (NewHysteria2 sampleCollaborators 0 (fun _ => (some 0, none)) 1 (fun _ => (some 1, none))
          salamanderOption).1 = Except.ok h) ∧
      Effect.newClient
          (constructionClientOptions sampleCollaborators 0 sampleTLS 0
            { salamanderOption with UdpMTU := 1197 }) ∈
        (NewHysteria2 sampleCollaborators 0 (fun _ => (some 0, none)) 1 (fun _ => (some 1, none))
          salamanderOption).2 ∧
      (constructionClientOptions sampleCollaborators 0 sampleTLS 0
        { salamanderOption with UdpMTU := 1197 }).SalamanderPassword = "" :=
  ⟨rfl, ⟨_, rfl⟩, by decide,
    (salamander_password_never_passed sampleCollaborators 0 (fun _ => (some 0, none)) 1
      (fun _ => (some 1, none)) salamanderOption).1 _ (by decide)⟩

/-- C9 (as amended): in every state with `ListenUpdateAt = DialUpdateAt + 1` (in
`int64` arithmetic) a listen call takes the adoption arm, adds one to
`ListenUpdateAt` (exactly one when `ListenUpdateAt` is an `int64` below the
largest), leaves `DialUpdateAt`, `needUpdateDial` and `cclient` as they are, and makes
the candidate slot `cclient` the active client; the active client is unchanged
when `cclient` is still the active client. -/
theorem listen_one_ahead_adopts_candidate_slot (h : Hysteria2)
    (hL : h.ListenUpdateAt = wrapInt64 (h.DialUpdateAt + 1)) :
    listenCase h = ListenCase.adopt ∧
      (ListenPacketContext h).ListenUpdateAt = wrapInt64 (h.ListenUpdateAt + 1) ∧
      (-9223372036854775808 ≤ h.ListenUpdateAt → h.ListenUpdateAt ≤ 9223372036854775806 →
        (ListenPacketContext h).ListenUpdateAt = h.ListenUpdateAt + 1) ∧
      (ListenPacketContext h).DialUpdateAt = h.DialUpdateAt ∧
      (ListenPacketContext h).needUpdateDial = h.needUpdateDial ∧
      (ListenPacketContext h).cclient = h.cclient ∧
      (ListenPacketContext h).client = h.cclient ∧
      (h.cclient = h.client → (ListenPacketContext h).client = h.client) := by
  obtain ⟨e1, e2, e3, e4, e5, e6⟩ := listen_at_one_ahead h hL
  refine ⟨e1, e2, ?_, e3, e6, e5, e4, ?_⟩
  · intro a b
    rw [e2]
    exact wrapInt64_of_range _ (by omega) (by omega)
  · intro e
    rw [e4, e]

/-- C9, witness of the amended statement: after a dial adoption, a tick and one
listen call, the next listen call makes the candidate of the tick active. -/
theorem listen_one_ahead_adopts_candidate_slot_witness :
    (run sampleCollaborators sampleTLS sampleAdapter
        [Call.dial 100, Call.tick 7 (some 2, none), Call.listen]).ListenUpdateAt =
      wrapInt64 ((run sampleCollaborators sampleTLS sampleAdapter
        [Call.dial 100, Call.tick 7 (some 2, none), Call.listen]).DialUpdateAt + 1) ∧
    (ListenPacketContext (run sampleCollaborators sampleTLS sampleAdapter
        [Call.dial 100, Call.tick 7 (some 2, none), Call.listen])).ListenUpdateAt = 102 ∧
    (ListenPacketContext (run sampleCollaborators sampleTLS sampleAdapter
        [Call.dial 100, Call.tick 7 (some 2, none), Call.listen])).client =
      (run sampleCollaborators sampleTLS sampleAdapter
        [Call.dial 100, Call.tick 7 (some 2, none), Call.listen]).cclient :=
  ⟨by decide, by decide,
    (listen_one_ahead_adopts_candidate_slot
      (run sampleCollaborators sampleTLS sampleAdapter
        [Call.dial 100, Call.tick 7 (some 2, none), Call.listen])
      (by decide)).2.2.2.2.2.2.1⟩

/-- C9, counterexample of the claim as stated: the constructor's adapter, a dial
call (which adopts client 1), a successful tick (candidate 2) and a listen call
reach a state with `ListenUpdateAt = DialUpdateAt + 1` whose active client is
client 1, the one the dial path installed. The next listen call makes client 2
active, although the only client a dial call has adopted is client 1. -/
theorem listen_adopts_before_dial :
    (run sampleCollaborators sampleTLS sampleAdapter
        [Call.dial 100, Call.tick 7 (some 2, none), Call.listen]).ListenUpdateAt =
      (run sampleCollaborators sampleTLS sampleAdapter
        [Call.dial 100, Call.tick 7 (some 2, none), Call.listen]).DialUpdateAt + 1 ∧
    (run sampleCollaborators sampleTLS sampleAdapter
        [Call.dial 100, Call.tick 7 (some 2, none), Call.listen]).client = some 1 ∧
    adoptedByDial sampleCollaborators sampleTLS sampleAdapter
        [Call.dial 100, Call.tick 7 (some 2, none), Call.listen, Call.listen] = [some 1] ∧
    (run sampleCollaborators sampleTLS sampleAdapter
        [Call.dial 100, Call.tick 7 (some 2, none), Call.listen, Call.listen]).client = some 2 ∧
    (run sampleCollaborators sampleTLS sampleAdapter
        [Call.dial 100, Call.tick 7 (some 2, none), Call.listen, Call.listen]).client ∉
      adoptedByDial sampleCollaborators sampleTLS sampleAdapter
        [Call.dial 100, Call.tick 7 (some 2, none), Call.listen, Call.listen] := by
  decide

/-- C3, the code at the failing input: the constructor's adapter holds the
candidate client 1 with `needUpdateDial` set. A tick at which
`hysteria2.NewClient` returns `(nil, err)` leaves the active client and
`needUpdateDial` as they are but stores nil in `cclient`; the next dial call
then makes nil the active client, where without the failed tick it makes
client 1 active, and so does the second of the next two listen calls. -/
theorem failed_tick_overwrites_candidate :
    (step sampleCollaborators sampleTLS sampleAdapter
        (Call.tick 7 (none, some "create failed"))).client = sampleAdapter.client ∧
      (step sampleCollaborators sampleTLS sampleAdapter
        (Call.tick 7 (none, some "create failed"))).needUpdateDial = true ∧
      (step sampleCollaborators sampleTLS sampleAdapter
        (Call.tick 7 (none, some "create failed"))).cclient = none ∧
      (run sampleCollaborators sampleTLS sampleAdapter [Call.dial 100]).client = some 1 ∧
      (run sampleCollaborators sampleTLS sampleAdapter
        [Call.tick 7 (none, some "create failed"), Call.dial 100]).client = none ∧
      (run sampleCollaborators sampleTLS sampleAdapter
        [Call.listen, Call.listen]).client = some 1 ∧
      (run sampleCollaborators sampleTLS sampleAdapter
        [Call.tick 7 (none, some "create failed"), Call.listen, Call.listen]).client = none := by
  decide

/-- C8, the code at the failing input: the adapter that `NewHysteria2` returns for
`sampleOption` has a nil `tickerDone`, so the first `closeHysteria2` call stops the
ticker and then never gets past the send of line 110: it does not return, the
rotation loop is not told to stop and `CloseWithError` is called on no client. -/
theorem close_blocks_on_first_call :
    (NewHysteria2 sampleCollaborators 0 (fun _ => (some 0, none)) 1 (fun _ => (some 1, none))
        sampleOption).1 = Except.ok sampleAdapter ∧
      sampleAdapter.tickerDone = none ∧
      (closeHysteria2 true sampleAdapter).completion = Completion.blocked ∧
      (closeHysteria2 true sampleAdapter).after.ticker.stopped = true ∧
      (closeHysteria2 true sampleAdapter).loopStopped = false ∧
      (closeHysteria2 true sampleAdapter).closed = [] ∧
      (closeHysteria2 false sampleAdapter).completion = Completion.blocked := by
  refine ⟨rfl, rfl, rfl, rfl, rfl, rfl, rfl⟩

end Outbound
